import Mathlib

/-!
Verification of the client-side logic of the catastrophe-loss dashboard
(`src/App.jsx`): formatting utilities, derived views over the fetched county
list, the cumulative time-series computation, and the selection /
run-consistency controller, shallowly embedded as Lean definitions.

JavaScript numbers are modelled as rationals (`ℚ`); a possibly-missing or
invalid (`NaN`) number is an `Option ℚ`, so that the pervasive `x || 0`
coalescing in the source is `Option.getD _ 0`.  JavaScript strings are
modelled as `List Char` (`Str`) where their structure matters, and rendered
display strings as Lean `String`.
-/

namespace CatLoss

open List

/-- Characters of a JavaScript string. -/
abbrev Str := List Char

/-- Coalescing of a possibly-missing/invalid number to `0`:
models `Number(x || 0)` and `x || 0` in the source (`undefined`, `null`,
`NaN` and `0` itself all coalesce to `0`). -/
def jsNum (n : Option ℚ) : ℚ := n.getD 0

/-- JavaScript `Math.round`: nearest integer, ties toward positive
infinity (`Math.round(1.5) = 2`, `Math.round(-1.5) = -1`). -/
def jsRound (q : ℚ) : ℤ := ⌊q + 1/2⌋

/-- Digit grouping of a reversed digit list: inserts `,` after every three
characters, working from the least-significant end. -/
def groupRev : Str → Str
  | a :: b :: c :: d :: rest => a :: b :: c :: ',' :: groupRev (d :: rest)
  | s => s

/-- JavaScript `Number.prototype.toLocaleString()` on an integer in the
default `en-US` locale: decimal digits with `,` as the grouping separator. -/
def intToLocaleString (n : ℤ) : String :=
  (if n < 0 then "-" else "") ++ String.mk ((groupRev (Nat.repr n.natAbs).data).reverse)

/-- JavaScript `Number.prototype.toFixed(d)`: fixed-point rendering with `d`
fractional digits; the scaled mantissa is the integer nearest to `|q|·10^d`,
ties resolved upward, with the sign prepended (per ECMA-262
`Number.prototype.toFixed`). -/
def toFixed (q : ℚ) (d : ℕ) : String :=
  let n : ℤ := ⌊|q| * (10:ℚ)^d + 1/2⌋
  let a := n.natAbs
  let ip := Nat.repr (a / 10^d)
  let fp := Nat.repr (a % 10^d)
  let pad := String.mk (List.replicate (d - fp.length) '0')
  (if q < 0 then "-" else "") ++ ip ++ (if d = 0 then "" else "." ++ pad ++ fp)

/-- `fmtCurrencyShort` from `src/App.jsx`:
`const v = Number(n || 0); if (v >= 1e9) return `$${(v/1e9).toFixed(2)}B`; ...` -/
def fmtCurrencyShort (n : Option ℚ) : String :=
  let v := jsNum n
  if 1000000000 ≤ v then "$" ++ toFixed (v / 1000000000) 2 ++ "B"
  else if 1000000 ≤ v then "$" ++ toFixed (v / 1000000) 2 ++ "M"
  else if 1000 ≤ v then "$" ++ toFixed (v / 1000) 1 ++ "K"
  else "$" ++ intToLocaleString (jsRound v)

/-- The value printed by `toFixed` at precision `p` (`p = 10^d`) for the
non-negative quotients reaching the suffix branches of `fmtCurrencyShort`:
the scaled ties-up rounding divided back by the precision. -/
def roundAt (q : ℚ) (p : ℕ) : ℚ := ((⌊q * p + 1/2⌋ : ℤ) : ℚ) / p

/-- The numeric value denoted by `fmtCurrencyShort`'s output, branch by
branch: the mantissa printed by `toFixed` times the suffix multiplier
(`B` = 10⁹, `M` = 10⁶, `K` = 10³), or the rounded integer of the final
branch.  `toFixed d` prints `⌊v·10^d + 1/2⌋ / 10^d` for the non-negative
values reaching those branches. -/
def fmtDenoted (n : Option ℚ) : ℚ :=
  let v := jsNum n
  if 1000000000 ≤ v then roundAt (v / 1000000000) 100 * 1000000000
  else if 1000000 ≤ v then roundAt (v / 1000000) 100 * 1000000
  else if 1000 ≤ v then roundAt (v / 1000) 10 * 1000
  else (jsRound v : ℚ)

/-- Divisor used by `shade`: models `max || 1` (a missing or zero maximum is
replaced by `1`). -/
def jsOrOne (m : Option ℚ) : ℚ :=
  match m with
  | none => 1
  | some x => if x = 0 then 1 else x

/-- Interpolation parameter of `shade`:
`Math.max(0, Math.min(1, (value || 0) / (max || 1)))`. -/
def shadeT (value maxv : Option ℚ) : ℚ :=
  max 0 (min 1 (jsNum value / jsOrOne maxv))

/-- One colour channel of `shade`: `Math.round(a + (b - a) * t)`. -/
def mixCh (a b : ℤ) (t : ℚ) : ℤ := jsRound ((a : ℚ) + ((b : ℚ) - (a : ℚ)) * t)

/-- Rendering of the three channels produced by `shade` as its
template-literal string `rgb(r, g, b)`. -/
def shadeRGB (t : ℚ) : String :=
  "rgb(" ++ toString (mixCh 219 30 t) ++ ", " ++ toString (mixCh 234 64 t) ++
    ", " ++ toString (mixCh 254 175 t) ++ ")"

/-- `shade(value, max)` from `src/App.jsx`: clamped linear interpolation of
each channel between `[219, 234, 254]` (blue-100) and `[30, 64, 175]`
(blue-800). -/
def shade (value maxv : Option ℚ) : String :=
  shadeRGB (shadeT value maxv)

/-- One entry of the fetched county list: `{ fips, name, el_total_sum }`.
`name` and `el_total_sum` are optional because the source guards them with
`c.name || ""` and `c.el_total_sum || 0`. -/
structure CountySummary where
  fips : Str
  name : Option Str
  el_total_sum : Option ℚ
deriving DecidableEq

/-- Coalesced loss value of a county: `c.el_total_sum || 0`. -/
def elv (c : CountySummary) : ℚ := jsNum c.el_total_sum

/-- The sort order induced by the comparator
`(a, b) => (b.el_total_sum || 0) - (a.el_total_sum || 0)`: `a` may stay
before `b` exactly when the comparator is ≤ 0 there. -/
def cmpByElDesc (a b : CountySummary) : Bool := decide (elv b ≤ elv a)

/-- `topSorted` from `src/App.jsx`: a copy of the county list sorted by the
descending-loss comparator.  `Array.prototype.sort` is required to be stable
since ES2019, so it is modelled by the stable `List.mergeSort`. -/
def topSorted (counties : List CountySummary) : List CountySummary :=
  counties.mergeSort cmpByElDesc

/-- Character-wise lower-casing, modelling
`String.prototype.toLowerCase()` on the names concerned. -/
def toLowerStr (s : Str) : Str := s.map Char.toLower

/-- JavaScript `String.prototype.trim()`: strips whitespace from both ends. -/
def jsTrim (s : Str) : Str :=
  ((s.dropWhile Char.isWhitespace).reverse.dropWhile Char.isWhitespace).reverse

/-- `suggestions` from `src/App.jsx`:
`if (!q.trim() || !countiesMeta?.counties) return [];` then filter the
counties by case-insensitive substring match of the trimmed query against
`c.name || ""`, sort by the descending-loss comparator (stable), and
`slice(0, 3)`. -/
def suggestions (counties : Option (List CountySummary)) (q : Str) : List CountySummary :=
  match counties with
  | none => []
  | some cs =>
    if jsTrim q = [] then []
    else
      let t := toLowerStr (jsTrim q)
      (((cs.filter fun c => decide (t <:+: toLowerStr (c.name.getD []))).mergeSort
          cmpByElDesc).take 3)

/-- One raw point of the per-county series response: `{ dt, el_total }`.
The timestamp payload `dt` is carried through opaquely (the source feeds it
to `new Date(s.dt)` unchanged). -/
structure RawPoint where
  dt : ℤ
  el_total : Option ℚ
deriving DecidableEq

/-- One derived point: the source's `{ dt: new Date(s.dt), el_total: step, cum }`. -/
structure SeriesPoint where
  dt : ℤ
  el_total : ℚ
  cum : ℚ
deriving DecidableEq

/-- Per-step loss: `Number(s.el_total) || 0`. -/
def elStep (p : RawPoint) : ℚ := jsNum p.el_total

/-- The mapping loop of `loadCounty` with running accumulator `c`:
`let cum = 0; (r.data.series || []).map(s => { cum += step; ... })`. -/
def computeSeriesFrom (c : ℚ) : List RawPoint → List SeriesPoint
  | [] => []
  | p :: ps =>
    let step := elStep p
    { dt := p.dt, el_total := step, cum := c + step } :: computeSeriesFrom (c + step) ps

/-- Derived series committed by `loadCounty` on success: cumulative sum
starting from zero for each new series. -/
def computeSeries (raw : List RawPoint) : List SeriesPoint := computeSeriesFrom 0 raw

/-- The current selection: `{ fips, name }`. -/
structure Selection where
  fips : Str
  name : Str
deriving DecidableEq

/-- The `/loss/counties` response body: `{ run, counties }`; `run : none`
models an absent or `null` field. -/
structure CountiesResponse where
  run : Option Str
  counties : List CountySummary
deriving DecidableEq

/-- Run capture in the county-list effect: `setRunId(r.data?.run || null)` —
an absent, `null` or empty-string (falsy) run is stored as `null`. -/
def captureRun (r : Option Str) : Option Str :=
  match r with
  | none => none
  | some s => if s = [] then none else some s

/-- An in-flight `/loss/county` request as issued by `loadCounty`.  The
request URL is `${API}/loss/county?fips=${fips}${q}` where
`q = runId ? `&run=${encodeURIComponent(runId)}` : ""`, so `run = none`
means the URL carries no `run` query parameter at all, and `run = some r`
means it carries `r` as its `run` query qualifier. -/
structure SeriesRequest where
  fips : Str
  name : Str
  run : Option Str
deriving DecidableEq

/-- Events of a session: the county-list fetch resolving (success or
failure), a county activation (map click, list click or suggestion pick, all
of which call `loadCounty`), and the arrival of the response of the
in-flight series request at position `idx` (success with a raw series, or
timeout / network error / non-2xx). -/
inductive Ev where
  | listSuccess (resp : CountiesResponse)
  | listFailure
  | select (fips name : Str)
  | respondSuccess (idx : ℕ) (raw : List RawPoint)
  | respondFailure (idx : ℕ)
deriving DecidableEq

/-- Whether an event is the county-list fetch resolving successfully (the
only event that writes `runId`; the effect has an empty dependency array, so
it runs once per session). -/
def isListLoad : Ev → Bool
  | .listSuccess _ => true
  | _ => false

/-- The view state of `App`: the `useState` cells, plus the multiset of
in-flight series requests. -/
structure AppState where
  countiesMeta : Option CountiesResponse
  runId : Option Str
  selected : Option Selection
  series : Option (List SeriesPoint)
  error : Str
  loading : Bool
  pending : List SeriesRequest
deriving DecidableEq

/-- Initial state: `useState(null)` everywhere, `loading` true, no error. -/
def initState : AppState :=
  { countiesMeta := none, runId := none, selected := none, series := none
    error := [], loading := true, pending := [] }

/-- The error message committed by `loadCounty`'s catch handler:
``setError(`No timeseries for ${name} (${fips})`)``. -/
def failMsg (name fips : Str) : Str :=
  "No timeseries for ".data ++ name ++ " (".data ++ fips ++ ")".data

/-- One step of the session, straight from the source:
* list success: `setCountiesMeta(r.data); setRunId(r.data?.run || null)`,
  `setLoading(false)` in the `finally`;
* list failure: `setError("Failed to load /loss/counties")`, loading off;
* `loadCounty(fips, name)`: `setSelected({fips, name}); setSeries(null);
  setError("")` and the request goes out carrying the current `runId`;
* series response success: `setSeries(data)` — committed unconditionally,
  with no check that the response still matches the current selection;
* series response failure: `setError(`No timeseries for ${name} (${fips})`)`
  with the `name`/`fips` of the request's own closure. -/
def step (s : AppState) (e : Ev) : AppState :=
  match e with
  | .listSuccess resp =>
    { s with countiesMeta := some resp, runId := captureRun resp.run, loading := false }
  | .listFailure =>
    { s with error := "Failed to load /loss/counties".data, loading := false }
  | .select fips name =>
    { s with selected := some ⟨fips, name⟩, series := none, error := []
             pending := s.pending ++ [⟨fips, name, s.runId⟩] }
  | .respondSuccess idx raw =>
    match s.pending[idx]? with
    | none => s
    | some _ =>
      { s with pending := s.pending.eraseIdx idx, series := some (computeSeries raw) }
  | .respondFailure idx =>
    match s.pending[idx]? with
    | none => s
    | some req =>
      { s with pending := s.pending.eraseIdx idx, error := failMsg req.name req.fips }

/-- A session run: fold the step function over an event list. -/
def runTrace (s : AppState) : List Ev → AppState
  | [] => s
  | e :: es => runTrace (step s e) es

/-- The series requests issued directly by an event (a `select` issues
exactly one, carrying the `runId` read from the state at call time). -/
def newReqs (s : AppState) (e : Ev) : List SeriesRequest :=
  match e with
  | .select fips name => [⟨fips, name, s.runId⟩]
  | _ => []

/-- All series requests issued while running an event list from a state. -/
def issuedReqs (s : AppState) : List Ev → List SeriesRequest
  | [] => []
  | e :: es => newReqs s e ++ issuedReqs (step s e) es

/-- Length is preserved by the derived-series mapping loop. -/
theorem computeSeriesFrom_length (raw : List RawPoint) :
    ∀ c : ℚ, (computeSeriesFrom c raw).length = raw.length := by
  induction raw with
  | nil => intro c; rfl
  | cons p ps ih => intro c; simp [computeSeriesFrom, ih]

/-- Pointwise description of the mapping loop: starting the accumulator at
`c`, the `i`-th derived point keeps `dt` and the coalesced step, and its
`cum` is `c` plus the sum of the first `i + 1` steps. -/
theorem computeSeriesFrom_get (raw : List RawPoint) :
    ∀ (c : ℚ) (i : ℕ) (p : RawPoint), raw[i]? = some p →
      ∃ d : SeriesPoint, (computeSeriesFrom c raw)[i]? = some d ∧
        d.dt = p.dt ∧ d.el_total = elStep p ∧
        d.cum = c + ((raw.take (i+1)).map elStep).sum := by
  induction raw with
  | nil => intro c i p h; simp at h
  | cons q qs ih =>
    intro c i p h
    cases i with
    | zero =>
      simp only [List.getElem?_cons_zero, Option.some.injEq] at h
      subst h
      refine ⟨⟨q.dt, elStep q, c + elStep q⟩, ?_, rfl, rfl, ?_⟩
      · simp [computeSeriesFrom]
      · simp [List.take_succ_cons]
    | succ n =>
      simp only [List.getElem?_cons_succ] at h
      obtain ⟨d, hd, h1, h2, h3⟩ := ih (c + elStep q) n p h
      refine ⟨d, ?_, h1, h2, ?_⟩
      · simpa [computeSeriesFrom] using hd
      · rw [h3]; simp [List.take_succ_cons]; ring

/-- C3: the derived series produced on load has the same length and order as
the raw series, and the `cum` field of the `i`-th derived point is the sum
of the coalesced `el_total` steps of points `0..i`, starting from zero; in
particular steps `[100, 200, 50]` yield cumulative values `[100, 300, 350]`. -/
theorem series_cumulative_spec :
    ∀ raw : List RawPoint,
      ((computeSeries raw).length = raw.length ∧
       ∀ (i : ℕ) (p : RawPoint), raw[i]? = some p →
         ∃ d : SeriesPoint, (computeSeries raw)[i]? = some d ∧
           d.dt = p.dt ∧ d.el_total = elStep p ∧
           d.cum = ((raw.take (i+1)).map elStep).sum) ∧
      computeSeries [⟨0, some 100⟩, ⟨1, some 200⟩, ⟨2, some 50⟩] =
        [⟨0, 100, 100⟩, ⟨1, 200, 300⟩, ⟨2, 50, 350⟩] := by
  refine fun raw => ⟨⟨computeSeriesFrom_length raw 0, ?_⟩, ?_⟩
  · intro i p h
    obtain ⟨d, hd, h1, h2, h3⟩ := computeSeriesFrom_get raw 0 i p h
    exact ⟨d, hd, h1, h2, by rw [h3, zero_add]⟩
  · with_unfolding_all decide

/-- Witness for C3 at the concrete three-point series, index 1. -/
theorem series_cumulative_spec_witness :
    ∃ d : SeriesPoint,
      (computeSeries [⟨0, some 100⟩, ⟨1, some 200⟩, ⟨2, some 50⟩])[1]? = some d ∧
      d.dt = (⟨1, some 200⟩ : RawPoint).dt ∧
      d.el_total = elStep ⟨1, some 200⟩ ∧
      d.cum = ((([⟨0, some 100⟩, ⟨1, some 200⟩, ⟨2, some 50⟩] : List RawPoint).take 2).map
        elStep).sum :=
  (series_cumulative_spec _).1.2 1 ⟨1, some 200⟩ rfl

/-- Demo county-list response used in concrete session traces. -/
def respDemo : CountiesResponse :=
  { run := some "run_dt=20240101T000000Z".data
    counties := [⟨"48001".data, some "Anderson".data, some 100⟩,
                 ⟨"48113".data, some "Dallas".data, some 7⟩] }

/-- Raw series returned for county 48001 (Anderson) in the race trace. -/
def rawA : List RawPoint := [⟨0, some 100⟩]

/-- Raw series returned for county 48113 (Dallas) in the race trace. -/
def rawB : List RawPoint := [⟨0, some 7⟩]

/-- The race trace: the list loads, Anderson (48001) is selected, then
Dallas (48113) is selected before Anderson's series resolves; Dallas's
response arrives first, and Anderson's stale response arrives last. -/
def staleTrace : List Ev :=
  [.listSuccess respDemo,
   .select "48001".data "Anderson".data,
   .select "48113".data "Dallas".data,
   .respondSuccess 1 rawB,
   .respondSuccess 0 rawA]

/-- C1: `loadCounty` has no stale-response guard — after selecting Anderson
then Dallas, with both responses arriving after the second selection, the
series committed to view state is stale Anderson's, not Dallas's, even
though the selection is Dallas.  This contradicts the required discard of
responses whose fips no longer matches the current selection (the code
commits `setSeries(data)` without comparing the response's fips to
`selected.fips`). -/
theorem stale_response_committed :
    (runTrace initState staleTrace).selected =
      some ⟨"48113".data, "Dallas".data⟩ ∧
    (runTrace initState staleTrace).series = some (computeSeries rawA) ∧
    computeSeries rawA ≠ computeSeries rawB := by
  with_unfolding_all decide

/-- While no county-list success occurs, `runId` is never written, and every
series request issued carries the `runId` of the starting state. -/
theorem runId_frozen (evs : List Ev) :
    ∀ s : AppState, (∀ e ∈ evs, isListLoad e = false) →
      (runTrace s evs).runId = s.runId ∧
      ∀ req ∈ issuedReqs s evs, req.run = s.runId := by
  induction evs with
  | nil =>
    intro s _
    exact ⟨rfl, by intro req h; simp [issuedReqs] at h⟩
  | cons e es ih =>
    intro s hno
    have he : isListLoad e = false := hno e (List.mem_cons_self e es)
    have hes : ∀ x ∈ es, isListLoad x = false := fun x hx => hno x (List.mem_cons_of_mem _ hx)
    have hstep : (step s e).runId = s.runId := by
      cases e with
      | listSuccess resp => simp [isListLoad] at he
      | listFailure => rfl
      | select f n => rfl
      | respondSuccess idx raw =>
        simp only [step]
        cases s.pending[idx]? <;> rfl
      | respondFailure idx =>
        simp only [step]
        cases s.pending[idx]? <;> rfl
    obtain ⟨h1, h2⟩ := ih (step s e) hes
    refine ⟨by rw [runTrace, h1, hstep], ?_⟩
    intro req hreq
    rw [issuedReqs] at hreq
    rcases List.mem_append.mp hreq with h | h
    · cases e with
      | listSuccess resp => simp [isListLoad] at he
      | listFailure => simp [newReqs] at h
      | select f n =>
        simp only [newReqs, List.mem_singleton] at h
        subst h
        rfl
      | respondSuccess idx raw => simp [newReqs] at h
      | respondFailure idx => simp [newReqs] at h
    · rw [h2 req h, hstep]

/-- C2: if the county-list fetch succeeds with a non-empty run identifier,
then for the rest of the session (the list effect has an empty dependency
array, so no further list load occurs) the stored run identifier stays
exactly that value — it is never mutated — and every series request issued
by `loadCounty` carries it as its `run` query qualifier. -/
theorem run_pinned_after_list_load :
    ∀ (s : AppState) (resp : CountiesResponse) (r : Str) (evs : List Ev),
      resp.run = some r → r ≠ [] →
      (∀ e ∈ evs, isListLoad e = false) →
      (runTrace (step s (.listSuccess resp)) evs).runId = some r ∧
      ∀ req ∈ issuedReqs (step s (.listSuccess resp)) evs, req.run = some r := by
  intro s resp r evs hrun hne hno
  have hcap : (step s (.listSuccess resp)).runId = some r := by
    simp [step, captureRun, hrun, hne]
  obtain ⟨h1, h2⟩ := runId_frozen evs (step s (.listSuccess resp)) hno
  exact ⟨by rw [h1, hcap], fun req hreq => by rw [h2 req hreq, hcap]⟩

/-- Witness for C2: a concrete session that loads the demo list (run
`run_dt=20240101T000000Z`) and then selects a county. -/
theorem run_pinned_after_list_load_witness :
    (runTrace (step initState (.listSuccess respDemo))
        [.select "48001".data "Anderson".data]).runId =
      some "run_dt=20240101T000000Z".data ∧
    ∀ req ∈ issuedReqs (step initState (.listSuccess respDemo))
        [.select "48001".data "Anderson".data],
      req.run = some "run_dt=20240101T000000Z".data :=
  run_pinned_after_list_load initState respDemo "run_dt=20240101T000000Z".data
    [.select "48001".data "Anderson".data] rfl
    (by with_unfolding_all decide) (by with_unfolding_all decide)

/-- C10: if the list response's run field is absent/null or the empty
string, the captured run identifier is stored as `null` (`none`), and every
subsequent series request carries no `run` query parameter at all (rather
than an empty qualifier). -/
theorem run_absent_no_qualifier :
    ∀ (s : AppState) (resp : CountiesResponse) (evs : List Ev),
      (resp.run = none ∨ resp.run = some []) →
      (∀ e ∈ evs, isListLoad e = false) →
      (runTrace (step s (.listSuccess resp)) evs).runId = none ∧
      ∀ req ∈ issuedReqs (step s (.listSuccess resp)) evs, req.run = none := by
  intro s resp evs hrun hno
  have hcap : (step s (.listSuccess resp)).runId = none := by
    rcases hrun with h | h <;> simp [step, captureRun, h]
  obtain ⟨h1, h2⟩ := runId_frozen evs (step s (.listSuccess resp)) hno
  exact ⟨by rw [h1, hcap], fun req hreq => by rw [h2 req hreq, hcap]⟩

/-- Witness for C10: a list response whose run field is the empty string,
followed by a selection. -/
theorem run_absent_no_qualifier_witness :
    (runTrace (step initState (.listSuccess ⟨some [], []⟩))
        [.select "48001".data "Anderson".data]).runId = none ∧
    ∀ req ∈ issuedReqs (step initState (.listSuccess ⟨some [], []⟩))
        [.select "48001".data "Anderson".data],
      req.run = none :=
  run_absent_no_qualifier initState ⟨some [], []⟩
    [.select "48001".data "Anderson".data] (Or.inr rfl)
    (by with_unfolding_all decide)

/-- C8: a failed series response (timeout, network error or non-2xx all
reach the same catch handler) commits exactly the error message naming the
requested county's name and fips — so the controller ends in the failed
state with a non-empty message containing both — and leaves the county
list, the run identifier, the selection and the series untouched. -/
theorem series_failure_spec :
    ∀ (s : AppState) (idx : ℕ) (req : SeriesRequest),
      s.pending[idx]? = some req →
      (step s (.respondFailure idx)).error = failMsg req.name req.fips ∧
      (step s (.respondFailure idx)).error ≠ [] ∧
      (∃ pre post, (step s (.respondFailure idx)).error = pre ++ req.name ++ post) ∧
      (∃ pre post, (step s (.respondFailure idx)).error = pre ++ req.fips ++ post) ∧
      (step s (.respondFailure idx)).countiesMeta = s.countiesMeta ∧
      (step s (.respondFailure idx)).runId = s.runId ∧
      (step s (.respondFailure idx)).selected = s.selected ∧
      (step s (.respondFailure idx)).series = s.series := by
  intro s idx req h
  have hs : step s (.respondFailure idx) =
      { s with pending := s.pending.eraseIdx idx, error := failMsg req.name req.fips } := by
    simp [step, h]
  rw [hs]
  refine ⟨rfl, ?_, ?_, ?_, rfl, rfl, rfl, rfl⟩
  · simp [failMsg]
  · exact ⟨"No timeseries for ".data, " (".data ++ req.fips ++ ")".data,
      by simp [failMsg, List.append_assoc]⟩
  · exact ⟨"No timeseries for ".data ++ req.name ++ " (".data, ")".data,
      by simp [failMsg, List.append_assoc]⟩

/-- Concrete state with one in-flight request, for the C8 witness. -/
def failDemoState : AppState :=
  { initState with pending := [⟨"48113".data, "Dallas".data, none⟩] }

/-- Witness for C8 at the concrete one-request state. -/
theorem series_failure_spec_witness :
    (step failDemoState (.respondFailure 0)).error =
      failMsg "Dallas".data "48113".data ∧
    (step failDemoState (.respondFailure 0)).error ≠ [] ∧
    (∃ pre post, (step failDemoState (.respondFailure 0)).error =
      pre ++ "Dallas".data ++ post) ∧
    (∃ pre post, (step failDemoState (.respondFailure 0)).error =
      pre ++ "48113".data ++ post) ∧
    (step failDemoState (.respondFailure 0)).countiesMeta = failDemoState.countiesMeta ∧
    (step failDemoState (.respondFailure 0)).runId = failDemoState.runId ∧
    (step failDemoState (.respondFailure 0)).selected = failDemoState.selected ∧
    (step failDemoState (.respondFailure 0)).series = failDemoState.series :=
  series_failure_spec failDemoState 0 ⟨"48113".data, "Dallas".data, none⟩ rfl

/-- The descending-loss comparator order is transitive. -/
theorem cmpByElDesc_trans (a b c : CountySummary) :
    cmpByElDesc a b → cmpByElDesc b c → cmpByElDesc a c := by
  simp only [cmpByElDesc, decide_eq_true_eq]
  exact fun h1 h2 => le_trans h2 h1

/-- The descending-loss comparator order is total. -/
theorem cmpByElDesc_total (a b : CountySummary) :
    cmpByElDesc a b || cmpByElDesc b a := by
  simp only [cmpByElDesc, Bool.or_eq_true, decide_eq_true_eq]
  exact le_total (elv b) (elv a)

/-- C5: `topSorted` is a permutation of the input county list, sorted
descending by coalesced `el_total_sum`, and counties with equal
`el_total_sum` keep their original relative order (the ES2019-mandated
stable sort).  Determinism across repeated computations is definitional:
`topSorted` is a pure function of the list. -/
theorem topSorted_spec :
    ∀ cs : List CountySummary,
      topSorted cs ~ cs ∧
      (topSorted cs).Pairwise (fun a b => elv b ≤ elv a) ∧
      ∀ a b : CountySummary, [a, b] <+ cs → a.el_total_sum = b.el_total_sum →
        [a, b] <+ topSorted cs := by
  intro cs
  refine ⟨List.mergeSort_perm cs cmpByElDesc, ?_, ?_⟩
  · have h := @List.sorted_mergeSort _ cmpByElDesc
      cmpByElDesc_trans cmpByElDesc_total cs
    exact h.imp fun hab => of_decide_eq_true hab
  · intro a b hsub heq
    apply List.pair_sublist_mergeSort cmpByElDesc_trans cmpByElDesc_total ?_ hsub
    simp [cmpByElDesc, elv, heq]

/-- Witness for C5: two counties with equal losses keep their order. -/
theorem topSorted_spec_witness :
    [(⟨"48001".data, some "Anderson".data, some 5⟩ : CountySummary),
     ⟨"48113".data, some "Dallas".data, some 5⟩] <+
      topSorted [⟨"48001".data, some "Anderson".data, some 5⟩,
                 ⟨"48113".data, some "Dallas".data, some 5⟩] :=
  (topSorted_spec _).2.2 _ _ (List.Sublist.refl _) rfl

/-- C4 as stated is refuted by a query with surrounding whitespace: the
source matches county names against the *trimmed* query
(`const t = q.trim().toLowerCase()`), so for the non-whitespace-only query
`" Collin"` the suggestion list contains the county `Collin` even though
`"collin"` does not contain `" collin"` as a substring. -/
theorem suggestions_untrimmed_cex :
    suggestions (some [⟨"48085".data, some "Collin".data, some 1⟩]) " Collin".data =
      [⟨"48085".data, some "Collin".data, some 1⟩] ∧
    ¬ toLowerStr " Collin".data <:+: toLowerStr "Collin".data := by
  with_unfolding_all decide

/-- C4 (amended: match is against the trimmed query): an empty or
whitespace-only query yields an empty suggestion list; otherwise the
suggestion list has length at most 3, contains only counties whose name
contains the trimmed query case-insensitively, and is sorted descending by
coalesced `el_total_sum`. -/
theorem suggestions_spec :
    ∀ (counties : Option (List CountySummary)) (q : Str),
      (jsTrim q = [] → suggestions counties q = []) ∧
      (suggestions counties q).length ≤ 3 ∧
      (∀ c ∈ suggestions counties q,
        toLowerStr (jsTrim q) <:+: toLowerStr (c.name.getD [])) ∧
      (suggestions counties q).Pairwise (fun a b => elv b ≤ elv a) := by
  intro counties q
  cases counties with
  | none =>
    refine ⟨fun _ => rfl, ?_, ?_, ?_⟩ <;> simp [suggestions]
  | some cs =>
    by_cases hq : jsTrim q = []
    · refine ⟨fun _ => ?_, ?_, ?_, ?_⟩ <;> simp [suggestions, hq]
    · refine ⟨fun h => absurd h hq, ?_, ?_, ?_⟩
      · simp only [suggestions, if_neg hq]
        exact List.length_take_le 3 _
      · intro c hc
        simp only [suggestions, if_neg hq] at hc
        have h1 := List.mem_of_mem_take hc
        rw [List.mem_mergeSort] at h1
        exact of_decide_eq_true (List.mem_filter.mp h1).2
      · simp only [suggestions, if_neg hq]
        have hs := @List.sorted_mergeSort _ cmpByElDesc
          cmpByElDesc_trans cmpByElDesc_total
          (cs.filter fun c =>
            decide (toLowerStr (jsTrim q) <:+: toLowerStr (c.name.getD [])))
        have ht := hs.sublist (List.take_sublist 3 _)
        exact ht.imp fun hab => of_decide_eq_true hab

/-- Witness for C4: the single suggestion for query "Col" has a name
containing the trimmed query case-insensitively. -/
theorem suggestions_spec_witness :
    toLowerStr (jsTrim "Col".data) <:+:
      toLowerStr ((⟨"48085".data, some "Collin".data, some 1⟩ : CountySummary).name.getD []) :=
  (suggestions_spec (some [⟨"48085".data, some "Collin".data, some 1⟩]) "Col".data).2.2.1
    ⟨"48085".data, some "Collin".data, some 1⟩ (by with_unfolding_all decide)

/-- C6: `fmtCurrencyShort` treats a missing/invalid input as 0 and renders
the four forms bucketed exactly at the 1e3/1e6/1e9 boundaries — value/1e9 to
two decimals with suffix B, value/1e6 to two decimals with suffix M,
value/1e3 to one decimal with suffix K, else the rounded integer with
grouping separators — with the claimed example outputs. -/
theorem fmtCurrencyShort_spec :
    (∀ n : Option ℚ,
      (1000000000 ≤ jsNum n →
        fmtCurrencyShort n = "$" ++ toFixed (jsNum n / 1000000000) 2 ++ "B") ∧
      (1000000 ≤ jsNum n → jsNum n < 1000000000 →
        fmtCurrencyShort n = "$" ++ toFixed (jsNum n / 1000000) 2 ++ "M") ∧
      (1000 ≤ jsNum n → jsNum n < 1000000 →
        fmtCurrencyShort n = "$" ++ toFixed (jsNum n / 1000) 1 ++ "K") ∧
      (jsNum n < 1000 →
        fmtCurrencyShort n = "$" ++ intToLocaleString (jsRound (jsNum n)))) ∧
    fmtCurrencyShort none = "$0" ∧
    fmtCurrencyShort (some 999) = "$999" ∧
    fmtCurrencyShort (some 1000) = "$1.0K" ∧
    fmtCurrencyShort (some 999999) = "$1000.0K" ∧
    fmtCurrencyShort (some 1000000) = "$1.00M" ∧
    fmtCurrencyShort (some 1000000000) = "$1.00B" := by
  refine ⟨?_, ?_, ?_, ?_, ?_, ?_, ?_⟩
  · intro n
    refine ⟨fun h1 => ?_, fun h1 h2 => ?_, fun h1 h2 => ?_, fun h1 => ?_⟩ <;>
      simp only [fmtCurrencyShort] <;> split_ifs <;> first | rfl | linarith
  all_goals with_unfolding_all decide

/-- Witness for C6: the K-bucket form at 5000. -/
theorem fmtCurrencyShort_spec_witness :
    fmtCurrencyShort (some 5000) = "$" ++ toFixed (jsNum (some 5000) / 1000) 1 ++ "K" :=
  (fmtCurrencyShort_spec.1 (some 5000)).2.2.1
    (by with_unfolding_all decide) (by with_unfolding_all decide)

/-- The light end of the gradient, as rendered at parameter 0. -/
theorem shadeRGB_zero : shadeRGB 0 = "rgb(219, 234, 254)" := by
  with_unfolding_all decide

/-- The dark end of the gradient, as rendered at parameter 1. -/
theorem shadeRGB_one : shadeRGB 1 = "rgb(30, 64, 175)" := by
  with_unfolding_all decide

/-- C7 as stated is refuted at a negative max: with value = 1 ≥ max = -1 the
claim demands the dark-end colour, but the code clamps value/max = -1 to 0
and returns the light-end colour rgb(219, 234, 254). -/
theorem shade_negative_max_cex :
    ((-1 : ℚ) ≤ 1) ∧
    shade (some 1) (some (-1)) = "rgb(219, 234, 254)" ∧
    "rgb(219, 234, 254)" ≠ "rgb(30, 64, 175)" := by
  with_unfolding_all decide

/-- C7 (amended: the endpoint clauses hold for a positive max): a missing
value is treated as 0 and a max of 0 as 1; for positive max `m`, value ≤ 0
gives the light-end reference colour rgb(219, 234, 254), value ≥ m gives the
dark-end reference colour rgb(30, 64, 175), and in between each channel is
the rounded linear interpolation at parameter value/m (for non-positive max
the clamped quotient degenerates instead, as the counterexample shows). -/
theorem shade_spec :
    (∀ maxv : Option ℚ, shade none maxv = shade (some 0) maxv) ∧
    (∀ value : Option ℚ, shade value (some 0) = shade value none) ∧
    (∀ (value : Option ℚ) (m : ℚ), 0 < m →
      (jsNum value ≤ 0 → shade value (some m) = "rgb(219, 234, 254)") ∧
      (m ≤ jsNum value → shade value (some m) = "rgb(30, 64, 175)") ∧
      (0 < jsNum value → jsNum value < m →
        shade value (some m) = shadeRGB (jsNum value / m))) := by
  refine ⟨fun maxv => rfl, fun value => ?_, fun value m hm => ?_⟩
  · simp [shade, shadeT, jsOrOne]
  · have hne : m ≠ 0 := ne_of_gt hm
    have hdiv : jsNum value / jsOrOne (some m) = jsNum value / m := by
      simp [jsOrOne, hne]
    refine ⟨fun hv => ?_, fun hv => ?_, fun hv1 hv2 => ?_⟩
    · have h1 : jsNum value / m ≤ 0 := by
        rcases lt_or_eq_of_le hv with h | h
        · exact le_of_lt (div_neg_of_neg_of_pos h hm)
        · rw [h]; simp
      have ht : shadeT value (some m) = 0 := by
        unfold shadeT
        rw [hdiv]
        exact max_eq_left ((min_le_right _ _).trans h1)
      rw [shade, ht, shadeRGB_zero]
    · have h1 : (1 : ℚ) ≤ jsNum value / m := (one_le_div hm).mpr hv
      have ht : shadeT value (some m) = 1 := by
        unfold shadeT
        rw [hdiv, min_eq_left h1, max_eq_right zero_le_one]
      rw [shade, ht, shadeRGB_one]
    · have h1 : jsNum value / m < 1 := (div_lt_one hm).mpr hv2
      have h2 : 0 < jsNum value / m := div_pos hv1 hm
      have ht : shadeT value (some m) = jsNum value / m := by
        unfold shadeT
        rw [hdiv, min_eq_right h1.le, max_eq_right h2.le]
      rw [shade, ht]

/-- Witness for C7: value -3 against max 10 renders the light end. -/
theorem shade_spec_witness :
    shade (some (-3)) (some 10) = "rgb(219, 234, 254)" :=
  (shade_spec.2.2 (some (-3)) 10 (by with_unfolding_all decide)).1
    (by with_unfolding_all decide)

/-- Ties-up rounding is monotone. -/
theorem jsRound_mono {a b : ℚ} (h : a ≤ b) : jsRound a ≤ jsRound b :=
  Int.floor_le_floor (by linarith)

/-- Ties-up rounding of a value below an integer stays at most that integer. -/
theorem jsRound_le_of_lt {a : ℚ} {z : ℤ} (h : a < z) : jsRound a ≤ z := by
  unfold jsRound
  have h1 : ⌊a + 1/2⌋ < z + 1 := Int.floor_lt.mpr (by push_cast; linarith)
  omega

/-- Printed rounding at a positive precision is monotone. -/
theorem roundAt_mono {a b : ℚ} {p : ℕ} (hp : 0 < (p:ℚ)) (h : a ≤ b) :
    roundAt a p ≤ roundAt b p := by
  unfold roundAt
  have h1 : a * p ≤ b * p := mul_le_mul_of_nonneg_right h hp.le
  have h2 : ⌊a * p + 1/2⌋ ≤ ⌊b * p + 1/2⌋ := Int.floor_le_floor (by linarith)
  have h3 : ((⌊a * p + 1/2⌋ : ℤ) : ℚ) ≤ ((⌊b * p + 1/2⌋ : ℤ) : ℚ) := by exact_mod_cast h2
  exact (div_le_div_right hp).mpr h3

/-- Printed rounding of a quotient ≥ 1 stays ≥ 1. -/
theorem roundAt_ge_one {q : ℚ} {p : ℕ} (hp : 0 < (p:ℚ)) (h : 1 ≤ q) :
    (1:ℚ) ≤ roundAt q p := by
  unfold roundAt
  rw [le_div_iff hp]
  have h1 : (1:ℚ) * p ≤ q * p := mul_le_mul_of_nonneg_right h hp.le
  have h2 : (p:ℤ) ≤ ⌊q * p + 1/2⌋ := Int.le_floor.mpr (by push_cast; linarith)
  have h3 : ((p:ℤ):ℚ) ≤ ((⌊q * p + 1/2⌋ : ℤ) : ℚ) := by exact_mod_cast h2
  push_cast at h3 ⊢
  linarith

/-- Printed rounding of a quotient below a bound stays at most the bound. -/
theorem roundAt_le {q : ℚ} {B p : ℕ} (hp : 0 < (p:ℚ)) (h : q < B) :
    roundAt q p ≤ B := by
  unfold roundAt
  rw [div_le_iff hp]
  have h1 : q * p < (B:ℚ) * p := mul_lt_mul_of_pos_right h hp
  have h2 : ⌊q * p + 1/2⌋ < (B * p : ℤ) + 1 := Int.floor_lt.mpr (by push_cast; linarith)
  have h3 : ⌊q * p + 1/2⌋ ≤ (B * p : ℤ) := by omega
  have h4 : ((⌊q * p + 1/2⌋ : ℤ) : ℚ) ≤ ((B * p : ℤ) : ℚ) := by exact_mod_cast h3
  push_cast at h4 ⊢
  linarith

/-- The denoted output value is at least 10⁹ in the B bucket. -/
theorem fmtDenoted_lb9 {n : Option ℚ} (h : (1000000000:ℚ) ≤ jsNum n) :
    (1000000000:ℚ) ≤ fmtDenoted n := by
  simp only [fmtDenoted, if_pos h]
  have hr : (1:ℚ) ≤ roundAt (jsNum n / 1000000000) 100 :=
    roundAt_ge_one (by norm_num) ((one_le_div (by norm_num)).mpr h)
  nlinarith

/-- The denoted output value is at least 10⁶ from the M bucket on. -/
theorem fmtDenoted_lb6 {n : Option ℚ} (h : (1000000:ℚ) ≤ jsNum n) :
    (1000000:ℚ) ≤ fmtDenoted n := by
  by_cases hB : (1000000000:ℚ) ≤ jsNum n
  · linarith [fmtDenoted_lb9 hB]
  · simp only [fmtDenoted, if_neg hB, if_pos h]
    have hr : (1:ℚ) ≤ roundAt (jsNum n / 1000000) 100 :=
      roundAt_ge_one (by norm_num) ((one_le_div (by norm_num)).mpr h)
    nlinarith

/-- The denoted output value is at least 10³ from the K bucket on. -/
theorem fmtDenoted_lb3 {n : Option ℚ} (h : (1000:ℚ) ≤ jsNum n) :
    (1000:ℚ) ≤ fmtDenoted n := by
  by_cases hB : (1000000000:ℚ) ≤ jsNum n
  · linarith [fmtDenoted_lb9 hB]
  · by_cases hM : (1000000:ℚ) ≤ jsNum n
    · linarith [fmtDenoted_lb6 hM]
    · simp only [fmtDenoted, if_neg hB, if_neg hM, if_pos h]
      have hr : (1:ℚ) ≤ roundAt (jsNum n / 1000) 10 :=
        roundAt_ge_one (by norm_num) ((one_le_div (by norm_num)).mpr h)
      nlinarith

/-- The denoted output value stays at most 10³ below the K bucket. -/
theorem fmtDenoted_ub3 {n : Option ℚ} (h : jsNum n < 1000) :
    fmtDenoted n ≤ 1000 := by
  have hB : ¬ (1000000000:ℚ) ≤ jsNum n := by linarith
  have hM : ¬ (1000000:ℚ) ≤ jsNum n := by linarith
  have hK : ¬ (1000:ℚ) ≤ jsNum n := by linarith
  simp only [fmtDenoted, if_neg hB, if_neg hM, if_neg hK]
  have h1 : jsRound (jsNum n) ≤ (1000:ℤ) := jsRound_le_of_lt (by exact_mod_cast h)
  exact_mod_cast h1

/-- The denoted output value stays at most 10⁶ below the M bucket. -/
theorem fmtDenoted_ub6 {n : Option ℚ} (h : jsNum n < 1000000) :
    fmtDenoted n ≤ 1000000 := by
  have hB : ¬ (1000000000:ℚ) ≤ jsNum n := by linarith
  have hM : ¬ (1000000:ℚ) ≤ jsNum n := by linarith
  by_cases hK : (1000:ℚ) ≤ jsNum n
  · simp only [fmtDenoted, if_neg hB, if_neg hM, if_pos hK]
    have hq : jsNum n / 1000 < ((1000:ℕ):ℚ) := by
      rw [div_lt_iff (by norm_num)]
      push_cast
      linarith
    have hr := roundAt_le (p := 10) (by norm_num) hq
    push_cast at hr
    nlinarith
  · linarith [fmtDenoted_ub3 (not_le.mp hK)]

/-- The denoted output value stays at most 10⁹ below the B bucket. -/
theorem fmtDenoted_ub9 {n : Option ℚ} (h : jsNum n < 1000000000) :
    fmtDenoted n ≤ 1000000000 := by
  have hB : ¬ (1000000000:ℚ) ≤ jsNum n := by linarith
  by_cases hM : (1000000:ℚ) ≤ jsNum n
  · simp only [fmtDenoted, if_neg hB, if_pos hM]
    have hq : jsNum n / 1000000 < ((1000:ℕ):ℚ) := by
      rw [div_lt_iff (by norm_num)]
      push_cast
      linarith
    have hr := roundAt_le (p := 100) (by norm_num) hq
    push_cast at hr
    nlinarith
  · linarith [fmtDenoted_ub6 (not_le.mp hM)]

/-- C9 as stated is refuted by a sign flip: |1.5| ≤ |-1.5|, but
`fmtCurrencyShort` renders "$2" (denoting 2) for 1.5 and "$-1" (denoting -1)
for -1.5 — `Math.round` rounds half toward +∞ — so the denoted output value
strictly decreases although the input magnitude does not. -/
theorem fmt_monotone_cex :
    |(3 : ℚ)/2| ≤ |(-3 : ℚ)/2| ∧
    fmtCurrencyShort (some (3/2)) = "$2" ∧
    fmtCurrencyShort (some (-3/2)) = "$-1" ∧
    fmtDenoted (some (3/2)) = 2 ∧
    fmtDenoted (some (-3/2)) = -1 ∧
    ¬ fmtDenoted (some (3/2)) ≤ fmtDenoted (some (-3/2)) := by
  with_unfolding_all decide

/-- C9 (amended: monotonic for non-negative inputs): for 0 ≤ n1 ≤ n2 the
numeric value denoted by the formatted output is monotone, and every output
is one of the four suffix forms bucketed exactly at the 1e3/1e6/1e9
boundaries (negative inputs land in the rounded-integer form, where
magnitude-monotonicity fails as the counterexample shows). -/
theorem fmt_monotone_nonneg :
    (∀ n1 n2 : Option ℚ, 0 ≤ jsNum n1 → jsNum n1 ≤ jsNum n2 →
      fmtDenoted n1 ≤ fmtDenoted n2) ∧
    (∀ n : Option ℚ,
      (1000000000 ≤ jsNum n → ∃ body,
        fmtCurrencyShort n = "$" ++ body ++ "B") ∧
      (1000000 ≤ jsNum n → jsNum n < 1000000000 → ∃ body,
        fmtCurrencyShort n = "$" ++ body ++ "M") ∧
      (1000 ≤ jsNum n → jsNum n < 1000000 → ∃ body,
        fmtCurrencyShort n = "$" ++ body ++ "K") ∧
      (jsNum n < 1000 →
        fmtCurrencyShort n = "$" ++ intToLocaleString (jsRound (jsNum n)))) := by
  constructor
  · intro n1 n2 h0 h12
    by_cases hB1 : (1000000000:ℚ) ≤ jsNum n1
    · have hB2 : (1000000000:ℚ) ≤ jsNum n2 := le_trans hB1 h12
      simp only [fmtDenoted, if_pos hB1, if_pos hB2]
      exact mul_le_mul_of_nonneg_right
        (roundAt_mono (by norm_num) ((div_le_div_right (by norm_num)).mpr h12))
        (by norm_num)
    · by_cases hB2 : (1000000000:ℚ) ≤ jsNum n2
      · linarith [fmtDenoted_ub9 (not_le.mp hB1), fmtDenoted_lb9 hB2]
      · by_cases hM1 : (1000000:ℚ) ≤ jsNum n1
        · have hM2 : (1000000:ℚ) ≤ jsNum n2 := le_trans hM1 h12
          simp only [fmtDenoted, if_neg hB1, if_neg hB2, if_pos hM1, if_pos hM2]
          exact mul_le_mul_of_nonneg_right
            (roundAt_mono (by norm_num) ((div_le_div_right (by norm_num)).mpr h12))
            (by norm_num)
        · by_cases hM2 : (1000000:ℚ) ≤ jsNum n2
          · linarith [fmtDenoted_ub6 (not_le.mp hM1), fmtDenoted_lb6 hM2]
          · by_cases hK1 : (1000:ℚ) ≤ jsNum n1
            · have hK2 : (1000:ℚ) ≤ jsNum n2 := le_trans hK1 h12
              simp only [fmtDenoted, if_neg hB1, if_neg hB2, if_neg hM1, if_neg hM2,
                if_pos hK1, if_pos hK2]
              exact mul_le_mul_of_nonneg_right
                (roundAt_mono (by norm_num) ((div_le_div_right (by norm_num)).mpr h12))
                (by norm_num)
            · by_cases hK2 : (1000:ℚ) ≤ jsNum n2
              · linarith [fmtDenoted_ub3 (not_le.mp hK1), fmtDenoted_lb3 hK2]
              · simp only [fmtDenoted, if_neg hB1, if_neg hB2, if_neg hM1, if_neg hM2,
                  if_neg hK1, if_neg hK2]
                exact_mod_cast jsRound_mono h12
  · intro n
    refine ⟨fun h1 => ?_, fun h1 h2 => ?_, fun h1 h2 => ?_, fun h1 => ?_⟩
    · simp only [fmtCurrencyShort]
      rw [if_pos h1]
      exact ⟨_, rfl⟩
    · simp only [fmtCurrencyShort]
      rw [if_neg (by linarith), if_pos h1]
      exact ⟨_, rfl⟩
    · simp only [fmtCurrencyShort]
      rw [if_neg (by linarith), if_neg (by linarith), if_pos h1]
      exact ⟨_, rfl⟩
    · simp only [fmtCurrencyShort]
      rw [if_neg (by linarith), if_neg (by linarith), if_neg (by linarith)]

/-- Witness for C9: monotonicity across the K/M buckets at 1000 ≤ 1500000,
and the rounded-integer form at 500. -/
theorem fmt_monotone_nonneg_witness :
    fmtDenoted (some 1000) ≤ fmtDenoted (some 1500000) ∧
    fmtCurrencyShort (some 500) = "$" ++ intToLocaleString (jsRound (jsNum (some 500))) :=
  ⟨fmt_monotone_nonneg.1 (some 1000) (some 1500000)
      (by with_unfolding_all decide) (by with_unfolding_all decide),
    (fmt_monotone_nonneg.2 (some 500)).2.2.2 (by with_unfolding_all decide)⟩

end CatLoss
